import Mathlib

/-!
Shallow embedding of `src/main.py` (openiap/sfpythonhello): a minimal HTTP
server whose handler class `MyHTTPRequestHandler` defines `do_GET`, `do_POST`
and `do_OPTIONS`.  `do_GET`/`do_POST` delegate to `handle_request`, which reads
the clock and the `SF_TAG` environment variable, prints one log line, and
responds `200` with a JSON body of three fields; `do_OPTIONS` responds `200`
with CORS headers and an empty body.

The embedding makes the handler a pure function of the request data, the
clock reading (`datetime.now()`) and the environment snapshot at handling
time.  Python stdlib calls used by the code (`os.environ.get`,
`datetime.isoformat`, `json.dumps`) are modelled faithfully to their
documented semantics.
-/

namespace SfPythonHello

/-- Model of Python's `datetime.datetime`: the seven components relevant to
`isoformat()`.  Python's constructor guarantees the ranges in
`DateTime.Valid`. -/
structure DateTime where
  year : Nat
  month : Nat
  day : Nat
  hour : Nat
  minute : Nat
  second : Nat
  microsecond : Nat
deriving DecidableEq, Repr

/-- The field ranges Python's `datetime` constructor enforces
(`MINYEAR = 1`, `MAXYEAR = 9999`, etc.). -/
def DateTime.Valid (d : DateTime) : Prop :=
  1 ≤ d.year ∧ d.year ≤ 9999 ∧ 1 ≤ d.month ∧ d.month ≤ 12 ∧
  1 ≤ d.day ∧ d.day ≤ 31 ∧ d.hour ≤ 23 ∧ d.minute ≤ 59 ∧
  d.second ≤ 59 ∧ d.microsecond ≤ 999999

instance (d : DateTime) : Decidable d.Valid := by
  unfold DateTime.Valid; infer_instance

/-- Two decimal digits, as `%02d` renders a value `< 100`. -/
def pad2 (n : Nat) : List Char :=
  [Nat.digitChar (n / 10), Nat.digitChar (n % 10)]

/-- Four decimal digits, as `%04d` renders a value `< 10000`. -/
def pad4 (n : Nat) : List Char :=
  [Nat.digitChar (n / 1000), Nat.digitChar (n / 100 % 10),
   Nat.digitChar (n / 10 % 10), Nat.digitChar (n % 10)]

/-- Six decimal digits, as `%06d` renders a value `< 1000000`. -/
def pad6 (n : Nat) : List Char :=
  [Nat.digitChar (n / 100000), Nat.digitChar (n / 10000 % 10),
   Nat.digitChar (n / 1000 % 10), Nat.digitChar (n / 100 % 10),
   Nat.digitChar (n / 10 % 10), Nat.digitChar (n % 10)]

/-- `datetime.isoformat()` with the default separator and `timespec`:
`YYYY-MM-DDTHH:MM:SS`, extended with `.ffffff` exactly when the microsecond
component is nonzero. -/
def DateTime.isoformatChars (d : DateTime) : List Char :=
  pad4 d.year ++ '-' :: pad2 d.month ++ '-' :: pad2 d.day ++
  'T' :: pad2 d.hour ++ ':' :: pad2 d.minute ++ ':' :: pad2 d.second ++
  (if d.microsecond = 0 then [] else '.' :: pad6 d.microsecond)

/-- `datetime.isoformat()` as a string. -/
def DateTime.isoformat (d : DateTime) : String :=
  String.mk d.isoformatChars

/-- Chronological order of datetimes, collapsed to one natural number
(fields compared lexicographically, year most significant). -/
def DateTime.key (d : DateTime) : Nat :=
  ((((d.year * 100 + d.month) * 100 + d.day) * 100 + d.hour) * 100
    + d.minute) * 100 * 1000000 + d.second * 1000000 + d.microsecond

/-- The per-request data the framework hands the handler: `self.command`
(the HTTP method), `self.path`, and `self.client_address[0]`. -/
structure Request where
  command : String
  path : String
  clientAddress : String
deriving DecidableEq, Repr

/-- What one invocation of a handler method produces: the console lines it
prints, the response status, the headers it sends via `send_header`, and the
bytes written to `wfile`. -/
structure HandlerResult where
  log : List String
  status : Nat
  headers : List (String × String)
  body : String
deriving DecidableEq, Repr

/-- A process environment snapshot (`os.environ`): an association list from
variable names to values. -/
abbrev Env := List (String × String)

/-- `os.environ.get(key, default)`. -/
def envGet (env : Env) (key dflt : String) : String :=
  (List.lookup key env).getD dflt

/-- `send_cors_headers` (src/main.py lines 44-47): the three headers it
emits via `send_header`, in order. -/
def send_cors_headers : List (String × String) :=
  [("Access-Control-Allow-Origin", "*"),
   ("Access-Control-Allow-Methods", "GET, POST, OPTIONS"),
   ("Access-Control-Allow-Headers", "Content-Type")]

/-- How `json.dumps` (default options, `ensure_ascii=True`) renders one
character inside a string literal: `"` and `\` get two-character escapes;
printable ASCII is literal; the five control characters with shorthand
escapes use them; every other character becomes `\uXXXX` (lowercase hex),
with astral code points split into a UTF-16 surrogate pair. -/
def jsonEscapeChar (c : Char) : List Char :=
  if c = '\\' then ['\\', '\\']
  else if c = '"' then ['\\', '"']
  else if 0x20 ≤ c.toNat ∧ c.toNat ≤ 0x7e then [c]
  else if c = '\x08' then ['\\', 'b']
  else if c = '\x09' then ['\\', 't']
  else if c = '\x0a' then ['\\', 'n']
  else if c = '\x0c' then ['\\', 'f']
  else if c = '\x0d' then ['\\', 'r']
  else if c.toNat < 0x10000 then
    '\\' :: 'u' :: [Nat.digitChar (c.toNat / 4096 % 16), Nat.digitChar (c.toNat / 256 % 16),
                    Nat.digitChar (c.toNat / 16 % 16), Nat.digitChar (c.toNat % 16)]
  else
    let m := c.toNat - 0x10000
    let hi := 0xd800 + m / 0x400
    let lo := 0xdc00 + m % 0x400
    '\\' :: 'u' :: [Nat.digitChar (hi / 4096 % 16), Nat.digitChar (hi / 256 % 16),
                    Nat.digitChar (hi / 16 % 16), Nat.digitChar (hi % 16)] ++
    '\\' :: 'u' :: [Nat.digitChar (lo / 4096 % 16), Nat.digitChar (lo / 256 % 16),
                    Nat.digitChar (lo / 16 % 16), Nat.digitChar (lo % 16)]

/-- JSON-escape a whole character sequence. -/
def escChars : List Char → List Char
  | [] => []
  | c :: cs => jsonEscapeChar c ++ escChars cs

/-- A JSON string literal: opening quote, escaped content, closing quote. -/
def jsonStringChars (s : String) : List Char :=
  '"' :: (escChars s.data ++ ['"'])

/-- The members of a JSON object, joined by `json.dumps`'s default item
separator `", "`, each key and value rendered with the default key
separator `": "`.  (The source only ever serialises a dict whose values
are strings, so only string values are modelled.) -/
def jsonMembersChars : List (String × String) → List Char
  | [] => []
  | [(k, v)] => jsonStringChars k ++ ':' :: ' ' :: jsonStringChars v
  | (k, v) :: rest =>
      jsonStringChars k ++ ':' :: ' ' :: jsonStringChars v ++
      ',' :: ' ' :: jsonMembersChars rest

/-- `json.dumps` of a dict of strings, in insertion order (Python dicts
preserve insertion order and `json.dumps` keeps it by default). -/
def jsonDumps (pairs : List (String × String)) : String :=
  String.mk ('\x7b' :: jsonMembersChars pairs ++ ['\x7d'])

/-- The `response_data` dict built in `handle_request`
(src/main.py lines 31-35), in insertion order. -/
def response_data (dt : DateTime) (version : String) : List (String × String) :=
  [("message", "Hello from python"),
   ("dt", dt.isoformat),
   ("version", version)]

/-- `MyHTTPRequestHandler.handle_request` (src/main.py lines 24-42) as a
pure function of the request, the clock reading taken at line 25
(`datetime.now()`), and the environment snapshot read at line 26. -/
def handle_request (req : Request) (now : DateTime) (env : Env) : HandlerResult :=
  let dt := now
  let version := envGet env "SF_TAG" "latest"
  let client_ip := req.clientAddress
  { log := ["Request received: " ++ req.command ++ " " ++ req.path ++
            " from " ++ client_ip]
    status := 200
    headers := ("Content-Type", "application/json") :: send_cors_headers
    body := jsonDumps (response_data dt version) }

/-- `do_GET` (src/main.py lines 13-14): delegates to `handle_request`. -/
def do_GET (req : Request) (now : DateTime) (env : Env) : HandlerResult :=
  handle_request req now env

/-- `do_POST` (src/main.py lines 16-17): delegates to `handle_request`. -/
def do_POST (req : Request) (now : DateTime) (env : Env) : HandlerResult :=
  handle_request req now env

/-- `do_OPTIONS` (src/main.py lines 19-22): status 200, CORS headers,
no body and no application-level log line. -/
def do_OPTIONS (_req : Request) : HandlerResult :=
  { log := []
    status := 200
    headers := send_cors_headers
    body := "" }

/-- `BaseHTTPRequestHandler`'s method dispatch: a request whose method is
`M` runs `do_M` when the handler class defines it; `MyHTTPRequestHandler`
defines only `do_GET`, `do_POST` and `do_OPTIONS`, so any other method
reaches no application code (`none`). -/
def dispatch (req : Request) (now : DateTime) (env : Env) : Option HandlerResult :=
  if req.command = "GET" then some (do_GET req now env)
  else if req.command = "POST" then some (do_POST req now env)
  else if req.command = "OPTIONS" then some (do_OPTIONS req)
  else none

/-! ### A JSON reader for flat string-valued objects

`parseJsonObject` accepts a strict subset of JSON — an object all of whose
values are string literals, which is the only shape the source ever
serialises — implementing the JSON string grammar in full (escape
sequences, `\uXXXX`, surrogate pairs, rejection of raw control
characters).  Success therefore witnesses that the input is valid JSON,
and the result exposes the keys and values. -/

/-- Value of one hexadecimal digit (JSON allows both cases). -/
def hexVal (c : Char) : Option Nat :=
  if '0' ≤ c ∧ c ≤ '9' then some (c.toNat - 48)
  else if 'a' ≤ c ∧ c ≤ 'f' then some (c.toNat - 87)
  else if 'A' ≤ c ∧ c ≤ 'F' then some (c.toNat - 55)
  else none

/-- Value of a four-hex-digit group `XXXX` in a `\uXXXX` escape. -/
def hex4 (a b c d : Char) : Option Nat := do
  let x ← hexVal a
  let y ← hexVal b
  let z ← hexVal c
  let w ← hexVal d
  pure (4096 * x + 256 * y + 16 * z + w)

/-- The single-character JSON escapes. -/
def escCode (c : Char) : Option Char :=
  if c = '"' then some '"'
  else if c = '\\' then some '\\'
  else if c = '/' then some '/'
  else if c = 'b' then some '\x08'
  else if c = 'f' then some '\x0c'
  else if c = 'n' then some '\x0a'
  else if c = 'r' then some '\x0d'
  else if c = 't' then some '\x09'
  else none

/-- Read a JSON string body (the opening quote already consumed) up to and
including the closing quote; returns the decoded characters and the rest of
the input.  Fuelled to keep the recursion structural; callers pass at least
the input length plus one. -/
def parseJStringAux : Nat → List Char → Option (List Char × List Char)
  | 0, _ => none
  | _, [] => none
  | fuel + 1, c :: cs =>
    if c = '"' then some ([], cs)
    else if c = '\\' then
      match cs with
      | [] => none
      | e :: cs1 =>
        if e = 'u' then
          match cs1 with
          | h1 :: h2 :: h3 :: h4 :: cs2 =>
            match hex4 h1 h2 h3 h4 with
            | none => none
            | some n =>
              if 0xd800 ≤ n ∧ n ≤ 0xdbff then
                match cs2 with
                | '\\' :: 'u' :: g1 :: g2 :: g3 :: g4 :: cs3 =>
                  match hex4 g1 g2 g3 g4 with
                  | none => none
                  | some m =>
                    if 0xdc00 ≤ m ∧ m ≤ 0xdfff then
                      match parseJStringAux fuel cs3 with
                      | none => none
                      | some (s, r) =>
                        some (Char.ofNat (0x10000 + (n - 0xd800) * 0x400 + (m - 0xdc00)) :: s, r)
                    else none
                | _ => none
              else if 0xdc00 ≤ n ∧ n ≤ 0xdfff then none
              else
                match parseJStringAux fuel cs2 with
                | none => none
                | some (s, r) => some (Char.ofNat n :: s, r)
          | _ => none
        else
          match escCode e with
          | none => none
          | some c1 =>
            match parseJStringAux fuel cs1 with
            | none => none
            | some (s, r) => some (c1 :: s, r)
    else if c.toNat < 0x20 then none
    else
      match parseJStringAux fuel cs with
      | none => none
      | some (s, r) => some (c :: s, r)

/-- Skip JSON insignificant whitespace. -/
def skipWs : List Char → List Char
  | [] => []
  | c :: cs =>
    if c = ' ' ∨ c = '\x09' ∨ c = '\x0a' ∨ c = '\x0d' then skipWs cs
    else c :: cs

/-- Read one JSON string literal body (opening quote already consumed);
the fuel, the input length plus one, always suffices since every step of
`parseJStringAux` consumes at least one character. -/
def readJString (cs : List Char) : Option (List Char × List Char) :=
  parseJStringAux (cs.length + 1) cs

/-- Read the nonempty member list of a JSON object whose values are string
literals, up to and including the closing brace. -/
def parseMembers : Nat → List Char → Option (List (String × String) × List Char)
  | 0, _ => none
  | fuel + 1, cs =>
    match cs with
    | '"' :: cs1 =>
      match readJString cs1 with
      | none => none
      | some (k, cs2) =>
        match skipWs cs2 with
        | ':' :: cs3 =>
          match skipWs cs3 with
          | '"' :: cs4 =>
            match readJString cs4 with
            | none => none
            | some (v, cs5) =>
              match skipWs cs5 with
              | ',' :: cs6 =>
                match parseMembers fuel (skipWs cs6) with
                | none => none
                | some (ps, r) => some ((String.mk k, String.mk v) :: ps, r)
              | '\x7d' :: cs6 => some ([(String.mk k, String.mk v)], cs6)
              | _ => none
          | _ => none
        | _ => none
    | _ => none

/-- Parse what follows the opening brace of an object (whitespace already
skipped): either an immediate closing brace for the empty object, or a
nonempty member list; afterwards only whitespace may remain. -/
def parseObjectBody (cs2 : List Char) : Option (List (String × String)) :=
  match cs2 with
  | '\x7d' :: cs3 => if skipWs cs3 = [] then some [] else none
  | _ =>
    match parseMembers (cs2.length + 1) cs2 with
    | none => none
    | some (ps, r) => if skipWs r = [] then some ps else none

/-- Parse a complete JSON document that is a flat object with string
values; the whole input must be consumed. -/
def parseJsonObject (s : String) : Option (List (String × String)) :=
  match skipWs s.data with
  | '\x7b' :: cs => parseObjectBody (skipWs cs)
  | _ => none

/-- Look a field of a handler's response body up by key, through the JSON
reader. -/
def getField (res : HandlerResult) (key : String) : Option String :=
  (parseJsonObject res.body).bind (fun ps => List.lookup key ps)

/-! ### An ISO-8601 reader

`parseIsoChars` accepts exactly the two shapes `datetime.isoformat()`
emits — `YYYY-MM-DDTHH:MM:SS` optionally followed by `.ffffff` — which are
ISO-8601 extended-format date-times. -/

/-- Value of one decimal digit. -/
def digitVal (c : Char) : Option Nat :=
  if '0' ≤ c ∧ c ≤ '9' then some (c.toNat - 48) else none

/-- Read two decimal digits as one number. -/
def readDigit2 : List Char → Option (Nat × List Char)
  | c1 :: c0 :: rest => do
    let a ← digitVal c1
    let b ← digitVal c0
    pure (a * 10 + b, rest)
  | _ => none

/-- Require one fixed character and consume it. -/
def expectChar (c : Char) : List Char → Option (List Char)
  | d :: rest => if d = c then some rest else none
  | _ => none

/-- Read the `YYYY-MM-DD` date part. -/
def parseIsoDatePart (cs0 : List Char) : Option (Nat × Nat × Nat × List Char) := do
  let (yh, cs) ← readDigit2 cs0
  let (yl, cs) ← readDigit2 cs
  let cs ← expectChar '-' cs
  let (month, cs) ← readDigit2 cs
  let cs ← expectChar '-' cs
  let (day, cs) ← readDigit2 cs
  pure (yh * 100 + yl, month, day, cs)

/-- Read the `HH:MM:SS` time part. -/
def parseIsoTimePart (cs0 : List Char) : Option (Nat × Nat × Nat × List Char) := do
  let (hour, cs) ← readDigit2 cs0
  let cs ← expectChar ':' cs
  let (minute, cs) ← readDigit2 cs
  let cs ← expectChar ':' cs
  let (second, cs) ← readDigit2 cs
  pure (hour, minute, second, cs)

/-- Read the optional `.ffffff` fractional-second part, which must end the
input; absent means zero microseconds. -/
def parseIsoMicro : List Char → Option Nat
  | [] => some 0
  | c :: cs1 =>
    if c = '.' then do
      let (u2, cs2) ← readDigit2 cs1
      let (u1, cs3) ← readDigit2 cs2
      let (u0, cs4) ← readDigit2 cs3
      match cs4 with
      | [] => pure ((u2 * 100 + u1) * 100 + u0)
      | _ => none
    else none

/-- Read an ISO-8601 extended date-time, with an optional six-digit
fractional second part. -/
def parseIsoChars (cs0 : List Char) : Option DateTime := do
  let (year, month, day, cs) ← parseIsoDatePart cs0
  let cs ← expectChar 'T' cs
  let (hour, minute, second, cs) ← parseIsoTimePart cs
  let micro ← parseIsoMicro cs
  pure (DateTime.mk year month day hour minute second micro)

/-- Read an ISO-8601 extended date-time from a string. -/
def parseIso8601 (s : String) : Option DateTime :=
  parseIsoChars s.data

/-! ### Digit and character facts -/

theorem digitVal_digitChar {x : Nat} (h : x < 10) :
    digitVal (Nat.digitChar x) = some x := by
  interval_cases x <;> decide

theorem hexVal_digitChar {x : Nat} (h : x < 16) :
    hexVal (Nat.digitChar x) = some x := by
  interval_cases x <;> decide

/-- The code point of a `Char` is a Unicode scalar value: below the
surrogate range or strictly between it and `0x110000`. -/
theorem char_toNat_valid (c : Char) :
    c.toNat < 55296 ∨ (57343 < c.toNat ∧ c.toNat < 1114112) := by
  rcases c.valid with h | ⟨h1, h2⟩
  · exact Or.inl (UInt32.toNat_lt_of_lt (by decide) h)
  · exact Or.inr ⟨UInt32.lt_toNat_of_lt (by decide) h1,
      UInt32.toNat_lt_of_lt (by decide) h2⟩

theorem hex4_digitChars {n : Nat} (h : n < 65536) :
    hex4 (Nat.digitChar (n / 4096 % 16)) (Nat.digitChar (n / 256 % 16))
      (Nat.digitChar (n / 16 % 16)) (Nat.digitChar (n % 16)) = some n := by
  have h1 : n / 4096 % 16 < 16 := Nat.mod_lt _ (by omega)
  have h2 : n / 256 % 16 < 16 := Nat.mod_lt _ (by omega)
  have h3 : n / 16 % 16 < 16 := Nat.mod_lt _ (by omega)
  have h4 : n % 16 < 16 := Nat.mod_lt _ (by omega)
  simp [hex4, hexVal_digitChar h1, hexVal_digitChar h2,
        hexVal_digitChar h3, hexVal_digitChar h4]
  omega

/-! ### The JSON reader inverts `json.dumps` -/

theorem parseJStringAux_quote (fuel : Nat) (rest : List Char) :
    parseJStringAux (fuel + 1) ('"' :: rest) = some ([], rest) := by
  simp [parseJStringAux]

theorem parseJStringAux_lit {c : Char} (h1 : c ≠ '"') (h2 : c ≠ '\\')
    (h3 : 32 ≤ c.toNat) {fuel : Nat} {tail s r : List Char}
    (hp : parseJStringAux fuel tail = some (s, r)) :
    parseJStringAux (fuel + 1) (c :: tail) = some (c :: s, r) := by
  simp [parseJStringAux, h1, h2, Nat.not_lt.mpr h3, hp]

theorem parseJStringAux_short {e c1 : Char} (he : e ≠ 'u')
    (hc : escCode e = some c1) {fuel : Nat} {tail s r : List Char}
    (hp : parseJStringAux fuel tail = some (s, r)) :
    parseJStringAux (fuel + 1) ('\\' :: e :: tail) = some (c1 :: s, r) := by
  simp [parseJStringAux, he, hc, hp]

theorem parseJStringAux_u {h1 h2 h3 h4 : Char} {n : Nat}
    (hhex : hex4 h1 h2 h3 h4 = some n) (hlo : ¬ (55296 ≤ n ∧ n ≤ 56319))
    (hhi : ¬ (56320 ≤ n ∧ n ≤ 57343)) {fuel : Nat} {tail s r : List Char}
    (hp : parseJStringAux fuel tail = some (s, r)) :
    parseJStringAux (fuel + 1) ('\\' :: 'u' :: h1 :: h2 :: h3 :: h4 :: tail)
      = some (Char.ofNat n :: s, r) := by
  simp [parseJStringAux, hhex, hlo, hhi, hp]

theorem parseJStringAux_pair {h1 h2 h3 h4 g1 g2 g3 g4 : Char} {n m : Nat}
    (hh : hex4 h1 h2 h3 h4 = some n) (hg : hex4 g1 g2 g3 g4 = some m)
    (hn1 : 55296 ≤ n) (hn2 : n ≤ 56319) (hm1 : 56320 ≤ m) (hm2 : m ≤ 57343)
    {fuel : Nat} {tail s r : List Char}
    (hp : parseJStringAux fuel tail = some (s, r)) :
    parseJStringAux (fuel + 1)
      ('\\' :: 'u' :: h1 :: h2 :: h3 :: h4 :: '\\' :: 'u' :: g1 :: g2 :: g3 :: g4 :: tail)
      = some (Char.ofNat (65536 + (n - 55296) * 1024 + (m - 56320)) :: s, r) := by
  simp [parseJStringAux, hh, hg, hn1, hn2, hm1, hm2, hp]

/-- Parsing a JSON string literal undoes `json.dumps`'s escaping, one
character at a time. -/
theorem parseJStringAux_escapeChar (c : Char) {fuel : Nat} {tail s r : List Char}
    (hp : parseJStringAux fuel tail = some (s, r)) :
    parseJStringAux (fuel + 1) (jsonEscapeChar c ++ tail) = some (c :: s, r) := by
  by_cases hbs : c = '\\'
  · subst hbs
    rw [show jsonEscapeChar '\\' = ['\\', '\\'] by decide]
    exact parseJStringAux_short (by decide) (by decide) hp
  by_cases hq : c = '"'
  · subst hq
    rw [show jsonEscapeChar '"' = ['\\', '"'] by decide]
    exact parseJStringAux_short (by decide) (by decide) hp
  by_cases hpr : 32 ≤ c.toNat ∧ c.toNat ≤ 126
  · have hesc : jsonEscapeChar c = [c] := by
      unfold jsonEscapeChar
      rw [if_neg hbs, if_neg hq, if_pos hpr]
    rw [hesc]
    exact parseJStringAux_lit hq hbs hpr.1 hp
  by_cases h08 : c = '\x08'
  · subst h08
    rw [show jsonEscapeChar '\x08' = ['\\', 'b'] by decide]
    exact parseJStringAux_short (by decide) (by decide) hp
  by_cases h09 : c = '\x09'
  · subst h09
    rw [show jsonEscapeChar '\x09' = ['\\', 't'] by decide]
    exact parseJStringAux_short (by decide) (by decide) hp
  by_cases h0a : c = '\x0a'
  · subst h0a
    rw [show jsonEscapeChar '\x0a' = ['\\', 'n'] by decide]
    exact parseJStringAux_short (by decide) (by decide) hp
  by_cases h0c : c = '\x0c'
  · subst h0c
    rw [show jsonEscapeChar '\x0c' = ['\\', 'f'] by decide]
    exact parseJStringAux_short (by decide) (by decide) hp
  by_cases h0d : c = '\x0d'
  · subst h0d
    rw [show jsonEscapeChar '\x0d' = ['\\', 'r'] by decide]
    exact parseJStringAux_short (by decide) (by decide) hp
  have hval := char_toNat_valid c
  by_cases hbmp : c.toNat < 65536
  · have hesc : jsonEscapeChar c =
        '\\' :: 'u' :: [Nat.digitChar (c.toNat / 4096 % 16), Nat.digitChar (c.toNat / 256 % 16),
                        Nat.digitChar (c.toNat / 16 % 16), Nat.digitChar (c.toNat % 16)] := by
      unfold jsonEscapeChar
      rw [if_neg hbs, if_neg hq, if_neg hpr, if_neg h08, if_neg h09, if_neg h0a,
          if_neg h0c, if_neg h0d, if_pos hbmp]
    rw [hesc]
    have hu := parseJStringAux_u (hex4_digitChars hbmp)
      (by omega) (by omega) hp
    simpa [Char.ofNat_toNat] using hu
  · have hesc : jsonEscapeChar c =
        '\\' :: 'u' :: [Nat.digitChar ((55296 + (c.toNat - 65536) / 1024) / 4096 % 16),
                        Nat.digitChar ((55296 + (c.toNat - 65536) / 1024) / 256 % 16),
                        Nat.digitChar ((55296 + (c.toNat - 65536) / 1024) / 16 % 16),
                        Nat.digitChar ((55296 + (c.toNat - 65536) / 1024) % 16)] ++
        '\\' :: 'u' :: [Nat.digitChar ((56320 + (c.toNat - 65536) % 1024) / 4096 % 16),
                        Nat.digitChar ((56320 + (c.toNat - 65536) % 1024) / 256 % 16),
                        Nat.digitChar ((56320 + (c.toNat - 65536) % 1024) / 16 % 16),
                        Nat.digitChar ((56320 + (c.toNat - 65536) % 1024) % 16)] := by
      unfold jsonEscapeChar
      rw [if_neg hbs, if_neg hq, if_neg hpr, if_neg h08, if_neg h09, if_neg h0a,
          if_neg h0c, if_neg h0d, if_neg hbmp]
    rw [hesc]
    have hdiv : (c.toNat - 65536) / 1024 ≤ 1023 := by omega
    have hmod : (c.toNat - 65536) % 1024 ≤ 1023 := by
      have := Nat.mod_lt (c.toNat - 65536) (show 0 < 1024 by omega)
      omega
    have hpair := parseJStringAux_pair
      (hex4_digitChars (show 55296 + (c.toNat - 65536) / 1024 < 65536 by omega))
      (hex4_digitChars (show 56320 + (c.toNat - 65536) % 1024 < 65536 by omega))
      (by omega) (by omega) (by omega) (by omega) hp
    have hcp : 65536 + (55296 + (c.toNat - 65536) / 1024 - 55296) * 1024 +
        (56320 + (c.toNat - 65536) % 1024 - 56320) = c.toNat := by
      have := Nat.div_add_mod (c.toNat - 65536) 1024
      omega
    rw [hcp, Char.ofNat_toNat] at hpair
    simpa using hpair

/-- Escaping never shrinks a string. -/
theorem length_le_escChars (s : List Char) : s.length ≤ (escChars s).length := by
  induction s with
  | nil => simp [escChars]
  | cons c cs ih =>
    have h1 : 1 ≤ (jsonEscapeChar c).length := by
      unfold jsonEscapeChar
      repeat' split
      all_goals simp
    simp only [escChars, List.length_cons, List.length_append]
    omega

/-- A JSON string reader run on escaped content followed by a closing quote
recovers the original characters. -/
theorem parseJStringAux_escChars (s : List Char) : ∀ (fuel : Nat) (rest : List Char),
    s.length < fuel →
    parseJStringAux fuel (escChars s ++ '"' :: rest) = some (s, rest) := by
  induction s with
  | nil =>
    intro fuel rest hf
    obtain ⟨f, rfl⟩ : ∃ f, fuel = f + 1 := ⟨fuel - 1, by omega⟩
    simpa [escChars] using parseJStringAux_quote f rest
  | cons c cs ih =>
    intro fuel rest hf
    obtain ⟨f, rfl⟩ : ∃ f, fuel = f + 1 := ⟨fuel - 1, by omega⟩
    have hcs : cs.length < f := by
      simp only [List.length_cons] at hf
      omega
    have h := parseJStringAux_escapeChar c (ih f rest hcs)
    simpa [escChars, List.append_assoc] using h

/-- Structure eta for strings. -/
theorem string_mk_data (s : String) : String.mk s.data = s := rfl

/-- `readJString` on escaped content followed by a closing quote recovers
the original string, with no fuel side condition. -/
theorem readJString_escChars (s : List Char) (rest : List Char) :
    readJString (escChars s ++ '"' :: rest) = some (s, rest) := by
  apply parseJStringAux_escChars
  have := length_le_escChars s
  simp only [List.length_append, List.length_cons]
  omega

theorem skipWs_space (cs : List Char) : skipWs (' ' :: cs) = skipWs cs := by
  simp [skipWs]

theorem skipWs_quote (cs : List Char) : skipWs ('"' :: cs) = '"' :: cs := by
  simp [skipWs]

theorem skipWs_colon (cs : List Char) : skipWs (':' :: cs) = ':' :: cs := by
  simp [skipWs]

theorem skipWs_comma (cs : List Char) : skipWs (',' :: cs) = ',' :: cs := by
  simp [skipWs]

theorem skipWs_lbrace (cs : List Char) : skipWs ('\x7b' :: cs) = '\x7b' :: cs := by
  simp [skipWs]

theorem skipWs_rbrace (cs : List Char) : skipWs ('\x7d' :: cs) = '\x7d' :: cs := by
  simp [skipWs]

/-- Processing one `"key": "value"` member of a serialised object. -/
theorem parseMembers_member (k v : String) (after : List Char) (f : Nat) :
    parseMembers (f + 1) (jsonStringChars k ++ ':' :: ' ' :: (jsonStringChars v ++ after)) =
      (match skipWs after with
       | ',' :: cs6 =>
         (match parseMembers f (skipWs cs6) with
          | none => none
          | some (ps, r) => some ((k, v) :: ps, r))
       | '\x7d' :: cs6 => some ([(k, v)], cs6)
       | _ => none) := by
  rw [show jsonStringChars k ++ (':' :: ' ' :: (jsonStringChars v ++ after)) =
      '"' :: (escChars k.data ++ '"' :: (':' :: ' ' :: (jsonStringChars v ++ after))) by
    simp [jsonStringChars]]
  rw [show jsonStringChars v ++ after = '"' :: (escChars v.data ++ '"' :: after) by
    simp [jsonStringChars]]
  simp only [parseMembers, readJString_escChars, skipWs_colon, skipWs_space, skipWs_quote,
    string_mk_data]

/-- Reduction of the post-member dispatch on a comma. -/
theorem memberCont_comma (k v : String) (f : Nat) (cs6 : List Char) :
    (match ',' :: cs6 with
     | ',' :: cs7 =>
       (match parseMembers f (skipWs cs7) with
        | none => none
        | some (ps, r) => some ((k, v) :: ps, r))
     | '\x7d' :: cs7 => some ([(k, v)], cs7)
     | _ => none) =
      (match parseMembers f (skipWs cs6) with
       | none => none
       | some (ps, r) => some ((k, v) :: ps, r)) := rfl

/-- Reduction of the post-member dispatch on a closing brace. -/
theorem memberCont_brace (k v : String) (f : Nat) (cs6 : List Char) :
    (match '\x7d' :: cs6 with
     | ',' :: cs7 =>
       (match parseMembers f (skipWs cs7) with
        | none => none
        | some (ps, r) => some ((k, v) :: ps, r))
     | '\x7d' :: cs7 => some ([(k, v)], cs7)
     | _ => none) = some ([(k, v)], cs6) := rfl

/-- The member reader inverts `jsonMembersChars` on nonempty member lists
followed by the closing brace. -/
theorem parseMembers_membersChars (pairs : List (String × String)) :
    ∀ (fuel : Nat) (rest : List Char), pairs.length < fuel → pairs ≠ [] →
    parseMembers fuel (jsonMembersChars pairs ++ '\x7d' :: rest) = some (pairs, rest) := by
  induction pairs with
  | nil => intro fuel rest _ hne; exact absurd rfl hne
  | cons p ps ih =>
    intro fuel rest hf _
    obtain ⟨f, rfl⟩ : ∃ f, fuel = f + 1 := ⟨fuel - 1, by omega⟩
    obtain ⟨k, v⟩ := p
    cases ps with
    | nil =>
      rw [show jsonMembersChars [(k, v)] ++ '\x7d' :: rest =
          jsonStringChars k ++ ':' :: ' ' :: (jsonStringChars v ++ '\x7d' :: rest) by
        simp [jsonMembersChars]]
      rw [parseMembers_member, skipWs_rbrace, memberCont_brace]
    | cons q qs =>
      rw [show jsonMembersChars ((k, v) :: q :: qs) ++ '\x7d' :: rest =
          jsonStringChars k ++ ':' :: ' ' ::
            (jsonStringChars v ++ ',' :: ' ' :: (jsonMembersChars (q :: qs) ++ '\x7d' :: rest)) by
        simp [jsonMembersChars]]
      rw [parseMembers_member, skipWs_comma, memberCont_comma, skipWs_space]
      have hq : skipWs (jsonMembersChars (q :: qs) ++ '\x7d' :: rest) =
          jsonMembersChars (q :: qs) ++ '\x7d' :: rest := by
        obtain ⟨k2, v2⟩ := q
        cases qs <;>
          simp [jsonMembersChars, jsonStringChars, skipWs]
      rw [hq]
      have hlen : (q :: qs).length < f := by
        simp only [List.length_cons] at hf ⊢
        omega
      rw [ih f rest hlen (by simp)]

/-- One serialised member occupies at least one character. -/
theorem length_le_jsonMembersChars (pairs : List (String × String)) :
    pairs.length ≤ (jsonMembersChars pairs).length := by
  induction pairs with
  | nil => simp [jsonMembersChars]
  | cons p ps ih =>
    obtain ⟨k, v⟩ := p
    cases ps with
    | nil => simp [jsonMembersChars, jsonStringChars]
    | cons q qs =>
      simp only [jsonMembersChars, jsonStringChars, List.length_cons, List.length_append] at ih ⊢
      omega

theorem parseJsonObject_mk_lbrace (X : List Char) :
    parseJsonObject (String.mk ('\x7b' :: X)) = parseObjectBody (skipWs X) := by
  unfold parseJsonObject
  rw [show (String.mk ('\x7b' :: X)).data = '\x7b' :: X from rfl, skipWs_lbrace]
  rfl

theorem parseObjectBody_quote (t : List Char) :
    parseObjectBody ('"' :: t) =
      (match parseMembers (('"' :: t).length + 1) ('"' :: t) with
       | none => none
       | some (ps, r) => if skipWs r = [] then some ps else none) := rfl

/-- The JSON reader inverts `json.dumps` on any dict of strings. -/
theorem parseJsonObject_jsonDumps (pairs : List (String × String)) :
    parseJsonObject (jsonDumps pairs) = some pairs := by
  cases pairs with
  | nil => rfl
  | cons p ps =>
    obtain ⟨k, v⟩ := p
    obtain ⟨t, ht⟩ : ∃ t, jsonMembersChars ((k, v) :: ps) = '"' :: t := by
      cases ps with
      | nil => exact ⟨_, rfl⟩
      | cons q qs => exact ⟨_, rfl⟩
    show parseJsonObject
        (String.mk ('\x7b' :: (jsonMembersChars ((k, v) :: ps) ++ ['\x7d']))) = _
    rw [parseJsonObject_mk_lbrace]
    have hM : jsonMembersChars ((k, v) :: ps) ++ ['\x7d'] = '"' :: (t ++ ['\x7d']) := by
      rw [ht]; rfl
    rw [show skipWs (jsonMembersChars ((k, v) :: ps) ++ ['\x7d']) =
        jsonMembersChars ((k, v) :: ps) ++ ['\x7d'] by rw [hM]; exact skipWs_quote _]
    rw [hM, parseObjectBody_quote, ← hM]
    have hlen : ((k, v) :: ps).length <
        (jsonMembersChars ((k, v) :: ps) ++ ['\x7d']).length + 1 := by
      have := length_le_jsonMembersChars ((k, v) :: ps)
      simp only [List.length_append, List.length_cons] at this ⊢
      omega
    rw [show jsonMembersChars ((k, v) :: ps) ++ ['\x7d'] =
        jsonMembersChars ((k, v) :: ps) ++ '\x7d' :: [] from rfl]
    rw [parseMembers_membersChars ((k, v) :: ps) _ [] hlen (by simp)]
    rfl

/-! ### The ISO-8601 reader inverts `isoformat` -/

theorem string_data_mk (cs : List Char) : (String.mk cs).data = cs := rfl

theorem readDigit2_digits {a b : Nat} (ha : a < 10) (hb : b < 10) (rest : List Char) :
    readDigit2 (Nat.digitChar a :: Nat.digitChar b :: rest) = some (a * 10 + b, rest) := by
  simp [readDigit2, digitVal_digitChar ha, digitVal_digitChar hb]

theorem expectChar_eq (c : Char) (rest : List Char) :
    expectChar c (c :: rest) = some rest := by
  simp [expectChar]

theorem parseIsoDatePart_pad {y mo dy : Nat} (hy : y ≤ 9999) (hmo : mo < 100)
    (hdy : dy < 100) (rest : List Char) :
    parseIsoDatePart (pad4 y ++ '-' :: (pad2 mo ++ '-' :: (pad2 dy ++ rest))) =
      some (y, mo, dy, rest) := by
  rw [show pad4 y ++ '-' :: (pad2 mo ++ '-' :: (pad2 dy ++ rest)) =
      Nat.digitChar (y / 1000) :: Nat.digitChar (y / 100 % 10) ::
      (Nat.digitChar (y / 10 % 10) :: Nat.digitChar (y % 10) ::
        ('-' :: (pad2 mo ++ '-' :: (pad2 dy ++ rest)))) by simp [pad4]]
  unfold parseIsoDatePart
  rw [readDigit2_digits (by omega) (by omega)]
  simp only [Option.bind_eq_bind, Option.some_bind]
  rw [readDigit2_digits (by omega) (by omega)]
  simp only [Option.some_bind, expectChar_eq]
  rw [show pad2 mo ++ '-' :: (pad2 dy ++ rest) =
      Nat.digitChar (mo / 10) :: Nat.digitChar (mo % 10) ::
        ('-' :: (pad2 dy ++ rest)) by simp [pad2]]
  rw [readDigit2_digits (by omega) (by omega)]
  simp only [Option.some_bind, expectChar_eq]
  rw [show pad2 dy ++ rest =
      Nat.digitChar (dy / 10) :: Nat.digitChar (dy % 10) :: rest by simp [pad2]]
  rw [readDigit2_digits (by omega) (by omega)]
  simp only [Option.some_bind, Option.pure_def, Option.some.injEq, Prod.mk.injEq]
  exact ⟨by omega, by omega, by omega, trivial⟩

theorem parseIsoTimePart_pad {hr mi se : Nat} (hh : hr < 100) (hm : mi < 100)
    (hs : se < 100) (rest : List Char) :
    parseIsoTimePart (pad2 hr ++ ':' :: (pad2 mi ++ ':' :: (pad2 se ++ rest))) =
      some (hr, mi, se, rest) := by
  rw [show pad2 hr ++ ':' :: (pad2 mi ++ ':' :: (pad2 se ++ rest)) =
      Nat.digitChar (hr / 10) :: Nat.digitChar (hr % 10) ::
        (':' :: (pad2 mi ++ ':' :: (pad2 se ++ rest))) by simp [pad2]]
  unfold parseIsoTimePart
  rw [readDigit2_digits (by omega) (by omega)]
  simp only [Option.bind_eq_bind, Option.some_bind, expectChar_eq]
  rw [show pad2 mi ++ ':' :: (pad2 se ++ rest) =
      Nat.digitChar (mi / 10) :: Nat.digitChar (mi % 10) ::
        (':' :: (pad2 se ++ rest)) by simp [pad2]]
  rw [readDigit2_digits (by omega) (by omega)]
  simp only [Option.some_bind, expectChar_eq]
  rw [show pad2 se ++ rest =
      Nat.digitChar (se / 10) :: Nat.digitChar (se % 10) :: rest by simp [pad2]]
  rw [readDigit2_digits (by omega) (by omega)]
  simp only [Option.some_bind, Option.pure_def, Option.some.injEq, Prod.mk.injEq]
  exact ⟨by omega, by omega, by omega, trivial⟩

theorem parseIsoMicro_pad {us : Nat} (h : us < 1000000) :
    parseIsoMicro ('.' :: pad6 us) = some us := by
  rw [show pad6 us =
      Nat.digitChar (us / 100000) :: Nat.digitChar (us / 10000 % 10) ::
        (Nat.digitChar (us / 1000 % 10) :: Nat.digitChar (us / 100 % 10) ::
          (Nat.digitChar (us / 10 % 10) :: Nat.digitChar (us % 10) :: [])) by
    simp [pad6]]
  simp only [parseIsoMicro, if_true]
  rw [readDigit2_digits (by omega) (by omega)]
  simp only [Option.bind_eq_bind, Option.some_bind]
  rw [readDigit2_digits (by omega) (by omega)]
  simp only [Option.some_bind]
  rw [readDigit2_digits (by omega) (by omega)]
  simp only [Option.some_bind, Option.pure_def, Option.some.injEq]
  omega

/-- The ISO-8601 reader recovers every component of `isoformat` output,
stated over an explicit `DateTime.mk`. -/
theorem parseIso_isoformat_mk (y mo dy hr mi se us : Nat)
    (hy1 : 1 ≤ y) (hy2 : y ≤ 9999) (hmo : mo ≤ 12) (hdy : dy ≤ 31)
    (hhr : hr ≤ 23) (hmi : mi ≤ 59) (hse : se ≤ 59) (hus : us ≤ 999999) :
    parseIso8601 (DateTime.mk y mo dy hr mi se us).isoformat =
      some (DateTime.mk y mo dy hr mi se us) := by
  unfold parseIso8601 DateTime.isoformat
  rw [string_data_mk]
  unfold DateTime.isoformatChars parseIsoChars
  dsimp only
  rw [show (pad4 y ++ '-' :: pad2 mo ++ '-' :: pad2 dy ++ 'T' :: pad2 hr ++
        ':' :: pad2 mi ++ ':' :: pad2 se ++
        (if us = 0 then [] else '.' :: pad6 us) : List Char) =
      pad4 y ++ '-' :: (pad2 mo ++ '-' :: (pad2 dy ++
        ('T' :: (pad2 hr ++ ':' :: (pad2 mi ++ ':' :: (pad2 se ++
          (if us = 0 then [] else '.' :: pad6 us))))))) by
    simp [List.append_assoc]]
  rw [parseIsoDatePart_pad (by omega) (by omega) (by omega)]
  simp only [Option.bind_eq_bind, Option.some_bind, expectChar_eq]
  rw [parseIsoTimePart_pad (by omega) (by omega) (by omega)]
  simp only [Option.some_bind]
  have hmicro : parseIsoMicro (if us = 0 then [] else '.' :: pad6 us) = some us := by
    by_cases h0 : us = 0
    · simp [h0, parseIsoMicro]
    · rw [if_neg h0]
      exact parseIsoMicro_pad (by omega)
  rw [hmicro]
  simp only [Option.some_bind, Option.pure_def]

/-- The ISO-8601 reader recovers every component of `isoformat` output for
a datetime within Python's field ranges. -/
theorem parseIso_isoformat {d : DateTime} (h : d.Valid) :
    parseIso8601 d.isoformat = some d := by
  obtain ⟨y, mo, dy, hr, mi, se, us⟩ := d
  obtain ⟨h1, h2, h3, h4, h5, h6, h7, h8, h9, h10⟩ := h
  exact parseIso_isoformat_mk y mo dy hr mi se us h1 h2 h4 h6 h7 h8 h9 h10
/-! ### Facts about the handler -/

/-- The body written by `handle_request` deserialises to exactly the
`response_data` dict it was built from. -/
theorem handle_request_parse (req : Request) (now : DateTime) (env : Env) :
    parseJsonObject (handle_request req now env).body =
      some (response_data now (envGet env "SF_TAG" "latest")) :=
  parseJsonObject_jsonDumps _

theorem getField_message (req : Request) (now : DateTime) (env : Env) :
    getField (handle_request req now env) "message" = some "Hello from python" := by
  unfold getField
  rw [handle_request_parse]
  simp [response_data, List.lookup]

theorem getField_dt (req : Request) (now : DateTime) (env : Env) :
    getField (handle_request req now env) "dt" = some now.isoformat := by
  unfold getField
  rw [handle_request_parse]
  simp [response_data, List.lookup]

theorem getField_version (req : Request) (now : DateTime) (env : Env) :
    getField (handle_request req now env) "version" =
      some (envGet env "SF_TAG" "latest") := by
  unfold getField
  rw [handle_request_parse]
  simp [response_data, List.lookup]

/-- A request whose method is GET or POST is dispatched to
`handle_request`. -/
theorem dispatch_get_post {req : Request} (h : req.command = "GET" ∨ req.command = "POST")
    (now : DateTime) (env : Env) :
    dispatch req now env = some (handle_request req now env) := by
  unfold dispatch do_GET do_POST
  rcases h with h | h
  · rw [if_pos h]
  · rw [h, if_neg (by decide), if_pos rfl]

/-! ### The claims -/

/-- C1: for every GET or POST request, on any path, the handler responds
with status 200, a `Content-Type: application/json` header, and a body that
is valid JSON (witnessed by the JSON reader succeeding) containing exactly
the three keys `message`, `dt`, `version`. -/
theorem c1_get_post_json_response (req : Request) (now : DateTime) (env : Env)
    (hreq : req.command = "GET" ∨ req.command = "POST") :
    ∃ res : HandlerResult, dispatch req now env = some res ∧
      res.status = 200 ∧
      ("Content-Type", "application/json") ∈ res.headers ∧
      parseJsonObject res.body =
        some (response_data now (envGet env "SF_TAG" "latest")) ∧
      (response_data now (envGet env "SF_TAG" "latest")).map Prod.fst =
        ["message", "dt", "version"] := by
  refine ⟨handle_request req now env, dispatch_get_post hreq now env, rfl, ?_,
    handle_request_parse req now env, rfl⟩
  simp [handle_request, send_cors_headers]

/-- Witness for C1 at a concrete GET request. -/
theorem c1_get_post_json_response_witness :
    ∃ res : HandlerResult,
      dispatch ⟨"GET", "/", "127.0.0.1"⟩ ⟨2024, 1, 2, 3, 4, 5, 6⟩ [] = some res ∧
      res.status = 200 ∧
      ("Content-Type", "application/json") ∈ res.headers ∧
      parseJsonObject res.body =
        some (response_data ⟨2024, 1, 2, 3, 4, 5, 6⟩ (envGet [] "SF_TAG" "latest")) ∧
      (response_data ⟨2024, 1, 2, 3, 4, 5, 6⟩ (envGet [] "SF_TAG" "latest")).map Prod.fst =
        ["message", "dt", "version"] :=
  c1_get_post_json_response ⟨"GET", "/", "127.0.0.1"⟩ ⟨2024, 1, 2, 3, 4, 5, 6⟩ []
    (Or.inl rfl)

/-- C2 counterexample: the claim says the `version` field does not change
mid-process even if the environment variable is mutated after startup; but
`handle_request` reads `SF_TAG` from the environment current at each
request (src/main.py line 26), so after a mutation from `v1` to `v2` the
field changes. -/
theorem c2_version_pinned_counterexample :
    getField (handle_request ⟨"GET", "/", "127.0.0.1"⟩ ⟨2024, 1, 2, 3, 4, 5, 6⟩
        [("SF_TAG", "v2")]) "version" ≠
    getField (handle_request ⟨"GET", "/", "127.0.0.1"⟩ ⟨2024, 1, 2, 3, 4, 5, 6⟩
        [("SF_TAG", "v1")]) "version" := by
  rw [getField_version, getField_version]
  decide

/-- C2 amended: the `version` field equals the value of `SF_TAG` in the
environment current at the time the request is handled, defaulting to the
literal `"latest"` when unset; it is therefore constant across requests
exactly as long as the environment does not change. -/
theorem c2_version_from_current_env (req : Request) (now : DateTime) (env : Env) :
    getField (handle_request req now env) "version" =
      some (envGet env "SF_TAG" "latest") :=
  getField_version req now env

/-- C3: an OPTIONS request, on any path, gets status 200, an empty body,
and the three CORS headers. -/
theorem c3_options_response (path ip : String) (now : DateTime) (env : Env) :
    dispatch ⟨"OPTIONS", path, ip⟩ now env = some (do_OPTIONS ⟨"OPTIONS", path, ip⟩) ∧
    (do_OPTIONS ⟨"OPTIONS", path, ip⟩).status = 200 ∧
    (do_OPTIONS ⟨"OPTIONS", path, ip⟩).body = "" ∧
    ("Access-Control-Allow-Origin", "*") ∈ (do_OPTIONS ⟨"OPTIONS", path, ip⟩).headers ∧
    ("Access-Control-Allow-Methods", "GET, POST, OPTIONS") ∈
      (do_OPTIONS ⟨"OPTIONS", path, ip⟩).headers ∧
    ("Access-Control-Allow-Headers", "Content-Type") ∈
      (do_OPTIONS ⟨"OPTIONS", path, ip⟩).headers := by
  refine ⟨?_, rfl, rfl, ?_, ?_, ?_⟩
  · unfold dispatch
    rw [if_neg (by simp), if_neg (by simp), if_pos rfl]
  all_goals simp [do_OPTIONS, send_cors_headers]

/-- C4: every response the handler produces — for GET, POST and OPTIONS
alike — carries the three CORS headers with these exact values. -/
theorem c4_cors_on_every_response (req : Request) (now : DateTime) (env : Env)
    (res : HandlerResult) (hres : dispatch req now env = some res) :
    ("Access-Control-Allow-Origin", "*") ∈ res.headers ∧
    ("Access-Control-Allow-Methods", "GET, POST, OPTIONS") ∈ res.headers ∧
    ("Access-Control-Allow-Headers", "Content-Type") ∈ res.headers := by
  unfold dispatch at hres
  split_ifs at hres with hg hp ho
  · injection hres with h
    subst h
    refine ⟨?_, ?_, ?_⟩ <;> simp [do_GET, handle_request, send_cors_headers]
  · injection hres with h
    subst h
    refine ⟨?_, ?_, ?_⟩ <;> simp [do_POST, handle_request, send_cors_headers]
  · injection hres with h
    subst h
    refine ⟨?_, ?_, ?_⟩ <;> simp [do_OPTIONS, send_cors_headers]

/-- Witness for C4 at a concrete OPTIONS request. -/
theorem c4_cors_on_every_response_witness :
    ("Access-Control-Allow-Origin", "*") ∈
      (do_OPTIONS ⟨"OPTIONS", "/x", "1.2.3.4"⟩).headers ∧
    ("Access-Control-Allow-Methods", "GET, POST, OPTIONS") ∈
      (do_OPTIONS ⟨"OPTIONS", "/x", "1.2.3.4"⟩).headers ∧
    ("Access-Control-Allow-Headers", "Content-Type") ∈
      (do_OPTIONS ⟨"OPTIONS", "/x", "1.2.3.4"⟩).headers :=
  c4_cors_on_every_response ⟨"OPTIONS", "/x", "1.2.3.4"⟩ ⟨2024, 1, 2, 3, 4, 5, 6⟩ []
    (do_OPTIONS ⟨"OPTIONS", "/x", "1.2.3.4"⟩) (by rfl)

/-- C5 counterexample: the claim says GET and POST emit the same log line
for the same path, clock and environment; but the log line interpolates
`self.command`, so a GET request logs `GET` where a POST request logs
`POST`, and the lines differ. -/
theorem c5_get_post_identical_counterexample :
    (do_GET ⟨"GET", "/", "127.0.0.1"⟩ ⟨2024, 1, 2, 3, 4, 5, 6⟩ []).log ≠
    (do_POST ⟨"POST", "/", "127.0.0.1"⟩ ⟨2024, 1, 2, 3, 4, 5, 6⟩ []).log := by
  decide

/-- C5 amended: for the same request path, clock reading and environment,
the GET and POST handlers emit the same status, headers and body — both
delegate to `handle_request` — and their log lines agree except for the
method token (`GET` vs `POST`). -/
theorem c5_get_post_same_response (path ip : String) (now : DateTime) (env : Env) :
    (∀ (req : Request) (n : DateTime) (e : Env), do_GET req n e = do_POST req n e) ∧
    (do_GET ⟨"GET", path, ip⟩ now env).status =
      (do_POST ⟨"POST", path, ip⟩ now env).status ∧
    (do_GET ⟨"GET", path, ip⟩ now env).headers =
      (do_POST ⟨"POST", path, ip⟩ now env).headers ∧
    (do_GET ⟨"GET", path, ip⟩ now env).body =
      (do_POST ⟨"POST", path, ip⟩ now env).body ∧
    (do_GET ⟨"GET", path, ip⟩ now env).log =
      ["Request received: " ++ "GET" ++ " " ++ path ++ " from " ++ ip] ∧
    (do_POST ⟨"POST", path, ip⟩ now env).log =
      ["Request received: " ++ "POST" ++ " " ++ path ++ " from " ++ ip] :=
  ⟨fun _ _ _ => rfl, rfl, rfl, rfl, rfl, rfl⟩

/-- C6: the `dt` field is computed fresh from the clock reading taken at
request-handling time (it equals `isoformat` of that very reading), it
parses as a valid ISO-8601 timestamp recovering that reading exactly, and
for two sequential requests whose clock readings are non-decreasing the
parsed timestamps are non-decreasing. -/
theorem c6_dt_fresh_iso_nondecreasing (r1 r2 : Request) (env1 env2 : Env)
    (t1 t2 : DateTime) (h1 : t1.Valid) (h2 : t2.Valid) (hseq : t1.key ≤ t2.key) :
    getField (handle_request r1 t1 env1) "dt" = some t1.isoformat ∧
    getField (handle_request r2 t2 env2) "dt" = some t2.isoformat ∧
    parseIso8601 t1.isoformat = some t1 ∧
    parseIso8601 t2.isoformat = some t2 ∧
    t1.key ≤ t2.key :=
  ⟨getField_dt r1 t1 env1, getField_dt r2 t2 env2,
   parseIso_isoformat h1, parseIso_isoformat h2, hseq⟩

/-- Witness for C6 at two concrete clock readings. -/
theorem c6_dt_fresh_iso_nondecreasing_witness :
    getField (handle_request ⟨"GET", "/", "127.0.0.1"⟩ ⟨2024, 1, 2, 3, 4, 5, 6⟩ [])
        "dt" = some (DateTime.isoformat ⟨2024, 1, 2, 3, 4, 5, 6⟩) ∧
    getField (handle_request ⟨"POST", "/a", "1.2.3.4"⟩ ⟨2024, 1, 2, 3, 4, 6, 0⟩ [])
        "dt" = some (DateTime.isoformat ⟨2024, 1, 2, 3, 4, 6, 0⟩) ∧
    parseIso8601 (DateTime.isoformat ⟨2024, 1, 2, 3, 4, 5, 6⟩) =
      some ⟨2024, 1, 2, 3, 4, 5, 6⟩ ∧
    parseIso8601 (DateTime.isoformat ⟨2024, 1, 2, 3, 4, 6, 0⟩) =
      some ⟨2024, 1, 2, 3, 4, 6, 0⟩ ∧
    DateTime.key ⟨2024, 1, 2, 3, 4, 5, 6⟩ ≤ DateTime.key ⟨2024, 1, 2, 3, 4, 6, 0⟩ :=
  c6_dt_fresh_iso_nondecreasing ⟨"GET", "/", "127.0.0.1"⟩ ⟨"POST", "/a", "1.2.3.4"⟩
    [] [] ⟨2024, 1, 2, 3, 4, 5, 6⟩ ⟨2024, 1, 2, 3, 4, 6, 0⟩
    (by decide) (by decide) (by decide)

/-- C7: the `message` field is the literal `"Hello from python"` for every
request, path, clock reading and environment. -/
theorem c7_message_literal (req : Request) (now : DateTime) (env : Env) :
    getField (handle_request req now env) "message" = some "Hello from python" :=
  getField_message req now env

/-- C8 counterexample: the claim says every incoming request, regardless of
method, is logged; but `do_OPTIONS` (src/main.py lines 19-22) contains no
print call, so an OPTIONS request produces zero application log lines, not
one. -/
theorem c8_one_log_line_counterexample :
    (do_OPTIONS ⟨"OPTIONS", "/x", "1.2.3.4"⟩).log = [] := rfl

/-- C8 amended: every GET or POST request logs exactly one console line,
and that line spells out the HTTP method, the request path and the client
IP address; an OPTIONS request produces no application log line. -/
theorem c8_one_log_line_get_post (req : Request) (now : DateTime) (env : Env) :
    (handle_request req now env).log =
      ["Request received: " ++ req.command ++ " " ++ req.path ++ " from " ++
        req.clientAddress] ∧
    (handle_request req now env).log.length = 1 ∧
    (∀ r : Request, (do_OPTIONS r).log = []) :=
  ⟨rfl, rfl, fun _ => rfl⟩

/-- C9: the handler class defines `do_GET`, `do_POST` and `do_OPTIONS`
only, so a request with any other method reaches no application code: the
dispatch yields nothing, and in particular neither the 200 JSON response
nor the CORS headers. -/
theorem c9_unsupported_method_no_handler (req : Request) (now : DateTime) (env : Env)
    (h : req.command ∉ (["GET", "POST", "OPTIONS"] : List String)) :
    dispatch req now env = none := by
  simp only [List.mem_cons, List.not_mem_nil, or_false, not_or] at h
  unfold dispatch
  rw [if_neg h.1, if_neg h.2.1, if_neg h.2.2]

/-- Witness for C9 at a DELETE request. -/
theorem c9_unsupported_method_no_handler_witness :
    dispatch ⟨"DELETE", "/", "127.0.0.1"⟩ ⟨2024, 1, 2, 3, 4, 5, 6⟩ [] = none :=
  c9_unsupported_method_no_handler ⟨"DELETE", "/", "127.0.0.1"⟩
    ⟨2024, 1, 2, 3, 4, 5, 6⟩ [] (by decide)

/-- C10: for any two GET-or-POST requests handled with the same clock
reading and environments agreeing on `SF_TAG`, the response status,
headers and body are identical, whatever the paths, client addresses or
methods: the response depends only on the clock and `SF_TAG`. -/
theorem c10_response_function_of_clock_and_sftag
    (r1 r2 : Request) (now : DateTime) (env1 env2 : Env)
    (hc1 : r1.command = "GET" ∨ r1.command = "POST")
    (hc2 : r2.command = "GET" ∨ r2.command = "POST")
    (henv : List.lookup "SF_TAG" env1 = List.lookup "SF_TAG" env2) :
    ∃ res1 res2, dispatch r1 now env1 = some res1 ∧ dispatch r2 now env2 = some res2 ∧
      res1.status = res2.status ∧ res1.headers = res2.headers ∧
      res1.body = res2.body := by
  refine ⟨_, _, dispatch_get_post hc1 now env1, dispatch_get_post hc2 now env2,
    rfl, rfl, ?_⟩
  unfold handle_request
  simp only [envGet, henv]

/-- Witness for C10: a GET and a POST on different paths from different
clients, same clock, same `SF_TAG`. -/
theorem c10_response_function_of_clock_and_sftag_witness :
    ∃ res1 res2,
      dispatch ⟨"GET", "/", "127.0.0.1"⟩ ⟨2024, 1, 2, 3, 4, 5, 6⟩
        [("SF_TAG", "v1"), ("OTHER", "a")] = some res1 ∧
      dispatch ⟨"POST", "/else", "10.0.0.9"⟩ ⟨2024, 1, 2, 3, 4, 5, 6⟩
        [("SF_TAG", "v1")] = some res2 ∧
      res1.status = res2.status ∧ res1.headers = res2.headers ∧
      res1.body = res2.body :=
  c10_response_function_of_clock_and_sftag
    ⟨"GET", "/", "127.0.0.1"⟩ ⟨"POST", "/else", "10.0.0.9"⟩
    ⟨2024, 1, 2, 3, 4, 5, 6⟩ [("SF_TAG", "v1"), ("OTHER", "a")] [("SF_TAG", "v1")]
    (Or.inl rfl) (Or.inr rfl) (by decide)

end SfPythonHello
